import Mathlib

/-!
Shallow embedding of the todo CRUD data-access layer of this repository
(`src/crud-api/server/src/bootstrap.ts`, class `TodoDatabase`, together with
the controller in `src/crud-api/server/src/controller.ts`).

The database table `todos(id SERIAL PRIMARY KEY, task TEXT NOT NULL,
completed BOOLEAN DEFAULT false)` is modelled as a list of rows in
insertion/storage order plus the SERIAL sequence counter `nextId` and the
table-existence flag `schema`.  Every repository method issues exactly one
parameterized SQL statement through `pool.query`; we model this by giving
each method one engine-disposition argument `fail : Option JsCaught`
standing for the single underlying call: `none` means the statement ran,
`some c` means the engine call threw `c`.  The catch blocks call
`TodoDatabase.throwError` (here `throwErr`, since that identifier is
reserved by Lean), which re-raises a fresh `Error` whose message is the
operation message followed by the original error's message.
-/

namespace TodoApp

/-- A row of the `todos` table, the `Todo` type of `bootstrap.ts`. -/
structure Todo where
  id : Int
  task : String
  completed : Bool
deriving Repr, DecidableEq

/-- A table definition: the column list of a CREATE TABLE statement. -/
structure TableDef where
  columns : List (String × String)
deriving Repr, DecidableEq

/-- The column list of the `todos` table created by `initialiseDb`. -/
def todosTableDef : TableDef :=
  ⟨[("id", "SERIAL PRIMARY KEY"),
    ("task", "TEXT NOT NULL"),
    ("completed", "BOOLEAN DEFAULT false")]⟩

/-- The visible database state: the (optional) `todos` table definition, its
rows in storage order, and the SERIAL sequence value the engine will assign
to the next inserted row.  SERIAL sequences only move forward, so `nextId`
never decreases and assigned ids are never reused. -/
structure DbState where
  schema : Option TableDef
  rows : List Todo
  nextId : Int
deriving Repr, DecidableEq

/-- The state of a fresh database: no table, no rows, SERIAL starts at 1. -/
def emptyDb : DbState := ⟨none, [], 1⟩

/-- A value caught by a `catch (error)` block: either a JavaScript `Error`
object carrying a message (the `error instanceof Error` branch), or any
other thrown value. -/
inductive JsCaught where
  | errObj (message : String)
  | nonError
deriving Repr, DecidableEq

/-- A JavaScript `Error` as far as the code observes it: its message. -/
structure JsError where
  message : String
deriving Repr, DecidableEq

/-- Embedding of `TodoDatabase.throwError(error, message)`: if the caught
value is an `Error`, throw `new Error(message + ": " + error.message)`,
otherwise throw `new Error(message)`.  It always throws; we return the
thrown error. -/
def throwErr : JsCaught → String → JsError
  | JsCaught.errObj m, message => ⟨message ++ ": " ++ m⟩
  | JsCaught.nonError, message => ⟨message⟩

/-- Embedding of `initialiseDb`: connect (covered by `fail`), then run
`CREATE TABLE IF NOT EXISTS todos (...)`.  The IF NOT EXISTS statement
creates the table when absent and is a successful no-op when present
(engine semantics of the issued statement); it never touches existing
rows.  On an engine failure the catch block wraps via `throwErr` with
message "Error initialising the database". -/
def initialiseDb (s : DbState) (fail : Option JsCaught) :
    Except JsError Unit × DbState :=
  match fail with
  | some c => (Except.error (throwErr c "Error initialising the database"), s)
  | none =>
      (Except.ok (),
       { s with schema := some (s.schema.getD todosTableDef) })

/-- Embedding of `getTodos`: `SELECT * FROM todos`, returning all rows. -/
def getTodos (s : DbState) (fail : Option JsCaught) :
    Except JsError (List Todo) :=
  match fail with
  | some c => Except.error (throwErr c "Error getting todos")
  | none => Except.ok s.rows

/-- Embedding of `getTodoById`: `SELECT * FROM todos WHERE id = $1`, then
`result.rows[0]` (the first matching row, or `undefined` when none). -/
def getTodoById (s : DbState) (id : Int) (fail : Option JsCaught) :
    Except JsError (Option Todo) :=
  match fail with
  | some c => Except.error (throwErr c "Error getting todo")
  | none => Except.ok ((s.rows.filter (fun t => t.id == id)).head?)

/-- Result set of `SELECT * FROM todos WHERE task = $1`: the rows whose
`task` matches exactly, as stored. -/
def selectByTask (s : DbState) (task : String) : List Todo :=
  s.rows.filter (fun t => t.task == task)

/-- Embedding of `getTodoByTask`: the engine hands back its result set
`resultRows` for `SELECT * FROM todos WHERE task = $1` (the statement has
no ORDER BY, so the engine may return the matching rows in any order) and
the method returns `result.rows[0]`. -/
def getTodoByTask (resultRows : List Todo) (fail : Option JsCaught) :
    Except JsError (Option Todo) :=
  match fail with
  | some c => Except.error (throwErr c "Error getting todo")
  | none => Except.ok resultRows.head?

/-- Embedding of `getTodoByStatus`: `SELECT * FROM todos WHERE completed =
$1`, returning all matching rows. -/
def getTodoByStatus (s : DbState) (status : Bool) (fail : Option JsCaught) :
    Except JsError (List Todo) :=
  match fail with
  | some c => Except.error (throwErr c "Error getting todos")
  | none => Except.ok (s.rows.filter (fun t => t.completed == status))

/-- Embedding of `createTodo`: `INSERT INTO todos (task) VALUES ($1)
RETURNING *`.  The engine assigns id `nextId` from the SERIAL sequence,
stores `completed` as its default `false`, appends the row, and the method
returns `result.rows[0]`, the inserted row. -/
def createTodo (s : DbState) (task : String) (fail : Option JsCaught) :
    Except JsError (Option Todo) × DbState :=
  match fail with
  | some c => (Except.error (throwErr c "Error creating todo"), s)
  | none =>
      let t : Todo := ⟨s.nextId, task, false⟩
      (Except.ok (some t),
       { s with rows := s.rows ++ [t], nextId := s.nextId + 1 })

/-- Embedding of `updateTodoStatus`: `UPDATE todos SET completed = $1 WHERE
id = $2 RETURNING *`, returning `result.rows[0]`. -/
def updateTodoStatus (s : DbState) (id : Int) (completed : Bool)
    (fail : Option JsCaught) : Except JsError (Option Todo) × DbState :=
  match fail with
  | some c => (Except.error (throwErr c "Error updating todo"), s)
  | none =>
      let rows' := s.rows.map
        (fun t => if t.id == id then { t with completed := completed } else t)
      (Except.ok ((rows'.filter (fun t => t.id == id)).head?),
       { s with rows := rows' })

/-- Embedding of `toggleTodoStatus`: `UPDATE todos SET completed = NOT
completed WHERE id = $1 RETURNING *`, returning `result.rows[0]`. -/
def toggleTodoStatus (s : DbState) (id : Int) (fail : Option JsCaught) :
    Except JsError (Option Todo) × DbState :=
  match fail with
  | some c => (Except.error (throwErr c "Error toggling todo status"), s)
  | none =>
      let rows' := s.rows.map
        (fun t => if t.id == id then { t with completed := !t.completed } else t)
      (Except.ok ((rows'.filter (fun t => t.id == id)).head?),
       { s with rows := rows' })

/-- Embedding of `updateTodoTask`: `UPDATE todos SET task = $1 WHERE id = $2
RETURNING *`, returning `result.rows[0]`. -/
def updateTodoTask (s : DbState) (id : Int) (task : String)
    (fail : Option JsCaught) : Except JsError (Option Todo) × DbState :=
  match fail with
  | some c => (Except.error (throwErr c "Error updating todo task"), s)
  | none =>
      let rows' := s.rows.map
        (fun t => if t.id == id then { t with task := task } else t)
      (Except.ok ((rows'.filter (fun t => t.id == id)).head?),
       { s with rows := rows' })

/-- Embedding of `updateTodo`: `UPDATE todos SET task = $1, completed = $2
WHERE id = $3 RETURNING *`, returning `result.rows[0]`. -/
def updateTodo (s : DbState) (id : Int) (task : String) (completed : Bool)
    (fail : Option JsCaught) : Except JsError (Option Todo) × DbState :=
  match fail with
  | some c => (Except.error (throwErr c "Error updating todo"), s)
  | none =>
      let rows' := s.rows.map
        (fun t => if t.id == id then { t with task := task, completed := completed }
                  else t)
      (Except.ok ((rows'.filter (fun t => t.id == id)).head?),
       { s with rows := rows' })

/-- Embedding of `deleteTodo`: `DELETE FROM todos WHERE id = $1 RETURNING *`,
removing the matching rows and returning `result.rows[0]`, the first deleted
row with its pre-delete field values. -/
def deleteTodo (s : DbState) (id : Int) (fail : Option JsCaught) :
    Except JsError (Option Todo) × DbState :=
  match fail with
  | some c => (Except.error (throwErr c "Error deleting todo"), s)
  | none =>
      (Except.ok ((s.rows.filter (fun t => t.id == id)).head?),
       { s with rows := s.rows.filter (fun t => !(t.id == id)) })

/-- Embedding of `deleteAllTodos`: `DELETE FROM todos`, no return value. -/
def deleteAllTodos (s : DbState) (fail : Option JsCaught) :
    Except JsError Unit × DbState :=
  match fail with
  | some c => (Except.error (throwErr c "Error deleting all todos"), s)
  | none => (Except.ok (), { s with rows := [] })

/-- Embedding of `deleteCompletedTodos`: `DELETE FROM todos WHERE completed =
true`, no return value. -/
def deleteCompletedTodos (s : DbState) (fail : Option JsCaught) :
    Except JsError Unit × DbState :=
  match fail with
  | some c => (Except.error (throwErr c "Error deleting completed todos"), s)
  | none => (Except.ok (), { s with rows := s.rows.filter (fun t => !t.completed) })

/-- Embedding of `deleteIncompleteTodos`: `DELETE FROM todos WHERE completed =
false`, no return value. -/
def deleteIncompleteTodos (s : DbState) (fail : Option JsCaught) :
    Except JsError Unit × DbState :=
  match fail with
  | some c => (Except.error (throwErr c "Error deleting incomplete todos"), s)
  | none => (Except.ok (), { s with rows := s.rows.filter (fun t => t.completed) })

/-- Embedding of `deleteTodoByTask`: `DELETE FROM todos WHERE task = $1`,
no return value. -/
def deleteTodoByTask (s : DbState) (task : String) (fail : Option JsCaught) :
    Except JsError Unit × DbState :=
  match fail with
  | some c => (Except.error (throwErr c "Error deleting todo by task"), s)
  | none => (Except.ok (), { s with rows := s.rows.filter (fun t => !(t.task == task)) })

/-- A JavaScript number as observed by this code: an integer, or `NaN`.
(The route ids handled here are integer-form or non-numeric strings;
fractional forms play no role in the code or claims.) -/
inductive JsNum where
  | int (n : Int)
  | nan
deriving Repr, DecidableEq

/-- Value of a list of decimal digit characters. -/
def decimalNat (cs : List Char) : Nat :=
  cs.foldl (fun n c => n * 10 + (c.toNat - 48)) 0

/-- Model of the JavaScript `Number(...)` coercion the controller applies to
the `:id` route parameter string (`controller.ts`, `Number(id)`): an
integer-form string converts to that integer, the empty string to 0, and a
non-numeric string gives `NaN`.  (Fractional and exponent forms do not
occur as route parameters in the claims considered.) -/
def jsNumber (s : String) : JsNum :=
  match s.data with
  | [] => JsNum.int 0
  | '-' :: rest =>
      if rest.isEmpty then JsNum.nan
      else if rest.all Char.isDigit then JsNum.int (-(decimalNat rest : Int))
      else JsNum.nan
  | cs =>
      if cs.all Char.isDigit then JsNum.int (decimalNat cs)
      else JsNum.nan

/-- A JavaScript value as it could be handed onward by a handler: a string
or a number. -/
inductive JsValue where
  | str (s : String)
  | num (v : JsNum)
deriving Repr, DecidableEq

/-- The argument the controller's `getTodoById` handler passes to the
repository: `Number(req.params.id)` (`controller.ts`), a number, never the
raw string. -/
def controllerIdArgument (idParam : String) : JsValue :=
  JsValue.num (jsNumber idParam)

/-- A failure surfacing from the get-by-id pipeline, tagged with where it
originated: `engineQuery` is a failure the storage engine raised while
executing the statement (wrapped by the repository catch block);
`validation` is a failure raised before any statement was issued.  The code
has no validation path, so `validation` is never produced; it exists to
state that fact. -/
inductive PipelineError where
  | engineQuery (message : String)
  | validation (message : String)
deriving Repr, DecidableEq

/-- Modelled from the spec: the storage engine (an external collaborator,
not part of src/) executes `SELECT * FROM todos WHERE id = $1`.  Per spec
§4.1/§7 a statement whose parameter is rejected (type mismatch, e.g. `NaN`
for the integer `id` column) fails with a QueryError; an integer parameter
selects the matching rows. -/
def engineSelectById (s : DbState) (idArg : JsNum) :
    Except String (List Todo) :=
  match idArg with
  | JsNum.nan => Except.error "invalid input syntax for type integer"
  | JsNum.int n => Except.ok (s.rows.filter (fun t => t.id == n))

/-- The repository `getTodoById` as invoked with a JavaScript number: runs
the statement through the engine; on an engine failure the catch block
wraps it via `throwErr` (an engine-query failure, not validation); on
success returns `result.rows[0]`. -/
def repoGetTodoByIdJs (s : DbState) (idArg : JsNum) :
    Except PipelineError (Option Todo) :=
  match engineSelectById s idArg with
  | Except.error m =>
      Except.error
        (PipelineError.engineQuery (throwErr (JsCaught.errObj m) "Error getting todo").message)
  | Except.ok rows => Except.ok rows.head?

/-- The controller's `getTodoById` handler: takes the raw `:id` route
parameter, applies `Number(...)` and calls the repository — no validation
of the parameter happens before the query (`controller.ts`). -/
def controllerGetTodoById (s : DbState) (idParam : String) :
    Except PipelineError (Option Todo) :=
  repoGetTodoByIdJs s (jsNumber idParam)

/-- A repository operation as recorded in a history of successfully executed
calls against the store (the state-changing operations of `TodoDatabase`). -/
inductive TraceOp where
  | create (task : String)
  | update (id : Int) (task : String) (completed : Bool)
  | updateStatus (id : Int) (completed : Bool)
  | updateTask (id : Int) (task : String)
  | toggle (id : Int)
  | deleteOne (id : Int)
  | deleteAll
  | deleteCompleted
  | deleteIncomplete
  | deleteByTask (task : String)
deriving Repr, DecidableEq

/-- State reached by one successfully executed repository call. -/
def applyOp (s : DbState) : TraceOp → DbState
  | TraceOp.create task => (createTodo s task none).2
  | TraceOp.update id task completed => (updateTodo s id task completed none).2
  | TraceOp.updateStatus id completed => (updateTodoStatus s id completed none).2
  | TraceOp.updateTask id task => (updateTodoTask s id task none).2
  | TraceOp.toggle id => (toggleTodoStatus s id none).2
  | TraceOp.deleteOne id => (deleteTodo s id none).2
  | TraceOp.deleteAll => (deleteAllTodos s none).2
  | TraceOp.deleteCompleted => (deleteCompletedTodos s none).2
  | TraceOp.deleteIncomplete => (deleteIncompleteTodos s none).2
  | TraceOp.deleteByTask task => (deleteTodoByTask s task none).2

/-- State reached by running a history of repository calls from `s`. -/
def runOpsFrom (s : DbState) : List TraceOp → DbState
  | [] => s
  | op :: rest => runOpsFrom (applyOp s op) rest

/-- State reached by running a history from a fresh database. -/
def runOps (ops : List TraceOp) : DbState :=
  runOpsFrom emptyDb ops

/-- Every id the SERIAL sequence assigned along a history starting at `s`,
including ids of rows later deleted. -/
def assignedIdsFrom (s : DbState) : List TraceOp → List Int
  | [] => []
  | op :: rest =>
      (match op with
       | TraceOp.create _ => [s.nextId]
       | _ => []) ++ assignedIdsFrom (applyOp s op) rest

/-- Every id ever assigned along a history run from a fresh database. -/
def assignedIds (ops : List TraceOp) : List Int :=
  assignedIdsFrom emptyDb ops

/-- Invariant: every stored row's id is below the SERIAL sequence value. -/
def rowsBounded (s : DbState) : Prop :=
  ∀ t ∈ s.rows, t.id < s.nextId

/-- A populated store: the three seed rows of the repository's init script,
with the SERIAL sequence at 4. -/
def sampleDb : DbState :=
  ⟨some todosTableDef,
   [⟨1, "Buy groceries", false⟩,
    ⟨2, "Walk the dog", true⟩,
    ⟨3, "Finish the TypeScript project", false⟩], 4⟩

/-- A store holding two distinct rows with the same task text. -/
def dupDb : DbState :=
  ⟨some todosTableDef, [⟨1, "same", false⟩, ⟨2, "same", true⟩], 3⟩

theorem applyOp_nextId_le (s : DbState) (op : TraceOp) :
    s.nextId ≤ (applyOp s op).nextId := by
  cases op <;>
    simp [applyOp, createTodo, updateTodo, updateTodoStatus, updateTodoTask,
      toggleTodoStatus, deleteTodo, deleteAllTodos, deleteCompletedTodos,
      deleteIncompleteTodos, deleteTodoByTask]

theorem runOpsFrom_nextId_le (ops : List TraceOp) :
    ∀ s : DbState, s.nextId ≤ (runOpsFrom s ops).nextId := by
  induction ops with
  | nil => intro s; exact le_refl _
  | cons op rest ih =>
      intro s
      exact le_trans (applyOp_nextId_le s op) (ih (applyOp s op))

theorem assignedIdsFrom_lt_nextId (ops : List TraceOp) :
    ∀ s : DbState, ∀ i ∈ assignedIdsFrom s ops, i < (runOpsFrom s ops).nextId := by
  induction ops with
  | nil => intro s i hi; simp [assignedIdsFrom] at hi
  | cons op rest ih =>
      intro s i hi
      rcases List.mem_append.mp hi with h | h
      · cases op <;> simp at h
        case create task =>
          have h1 : (applyOp s (TraceOp.create task)).nextId = s.nextId + 1 := by
            simp [applyOp, createTodo]
          have h2 := runOpsFrom_nextId_le rest (applyOp s (TraceOp.create task))
          show i < (runOpsFrom (applyOp s (TraceOp.create task)) rest).nextId
          omega
      · exact ih (applyOp s op) i h

theorem mem_map_preserving_id {rows : List Todo} {f : Todo → Todo}
    (hf : ∀ t, (f t).id = t.id) {t : Todo} (ht : t ∈ rows.map f) :
    ∃ u ∈ rows, t.id = u.id := by
  rcases List.mem_map.mp ht with ⟨u, hu, rfl⟩
  exact ⟨u, hu, hf u⟩

theorem applyOp_rowsBounded (s : DbState) (op : TraceOp)
    (h : rowsBounded s) : rowsBounded (applyOp s op) := by
  cases op with
  | create task =>
      intro t ht
      simp only [applyOp, createTodo, List.mem_append, List.mem_singleton] at ht
      rcases ht with ht | rfl
      · have := h t ht
        simp only [applyOp, createTodo]
        omega
      · simp only [applyOp, createTodo]
        omega
  | update id task completed =>
      intro t ht
      rcases mem_map_preserving_id
          (f := fun u => if u.id == id then { u with task := task, completed := completed } else u)
          (fun u => by by_cases hc : u.id == id <;> simp [hc]) ht with ⟨u, hu, hid⟩
      have := h u hu
      simpa [applyOp, updateTodo, hid] using this
  | updateStatus id completed =>
      intro t ht
      rcases mem_map_preserving_id
          (f := fun u => if u.id == id then { u with completed := completed } else u)
          (fun u => by by_cases hc : u.id == id <;> simp [hc]) ht with ⟨u, hu, hid⟩
      have := h u hu
      simpa [applyOp, updateTodoStatus, hid] using this
  | updateTask id task =>
      intro t ht
      rcases mem_map_preserving_id
          (f := fun u => if u.id == id then { u with task := task } else u)
          (fun u => by by_cases hc : u.id == id <;> simp [hc]) ht with ⟨u, hu, hid⟩
      have := h u hu
      simpa [applyOp, updateTodoTask, hid] using this
  | toggle id =>
      intro t ht
      rcases mem_map_preserving_id
          (f := fun u => if u.id == id then { u with completed := !u.completed } else u)
          (fun u => by by_cases hc : u.id == id <;> simp [hc]) ht with ⟨u, hu, hid⟩
      have := h u hu
      simpa [applyOp, toggleTodoStatus, hid] using this
  | deleteOne id =>
      intro t ht
      exact h t (List.mem_of_mem_filter ht)
  | deleteAll =>
      intro t ht
      simp [applyOp, deleteAllTodos] at ht
  | deleteCompleted =>
      intro t ht
      exact h t (List.mem_of_mem_filter ht)
  | deleteIncomplete =>
      intro t ht
      exact h t (List.mem_of_mem_filter ht)
  | deleteByTask task =>
      intro t ht
      exact h t (List.mem_of_mem_filter ht)

theorem runOpsFrom_rowsBounded (ops : List TraceOp) :
    ∀ s : DbState, rowsBounded s → rowsBounded (runOpsFrom s ops) := by
  induction ops with
  | nil => intro s hs; exact hs
  | cons op rest ih =>
      intro s hs
      exact ih (applyOp s op) (applyOp_rowsBounded s op hs)

theorem runOps_rowsBounded (ops : List TraceOp) : rowsBounded (runOps ops) :=
  runOpsFrom_rowsBounded ops emptyDb (by intro t ht; simp [emptyDb] at ht)

/-- C1: after any history of successfully executed repository calls on an
initially fresh store, `createTodo(task)` appends exactly one new row and
returns it, with `task` equal to the argument, `completed = false`, and an
id that was never assigned to any previously existing row nor to any row
created earlier and since deleted. -/
theorem createTodo_fresh_row (ops : List TraceOp) (task : String) :
    ∃ t : Todo,
      (createTodo (runOps ops) task none).1 = Except.ok (some t) ∧
      t.task = task ∧
      t.completed = false ∧
      (createTodo (runOps ops) task none).2.rows = (runOps ops).rows ++ [t] ∧
      t.id ∉ assignedIds ops ∧
      (∀ u ∈ (runOps ops).rows, u.id ≠ t.id) := by
  refine ⟨⟨(runOps ops).nextId, task, false⟩, rfl, rfl, rfl, rfl, ?_, ?_⟩
  · intro hmem
    exact absurd (assignedIdsFrom_lt_nextId ops emptyDb _ hmem) (lt_irrefl _)
  · intro u hu h
    have hb := runOps_rowsBounded ops u hu
    have h2 : u.id = (runOps ops).nextId := h
    omega

/-- C2: when no stored row has the requested id, `getTodoById` returns the
"not found" outcome `ok none` rather than throwing; moreover with a healthy
engine the call never throws for any id, and a thrown error occurs exactly
when the underlying query itself fails. -/
theorem getTodoById_absent_not_found (s : DbState) (id : Int)
    (h : ∀ t ∈ s.rows, t.id ≠ id) :
    getTodoById s id none = Except.ok none ∧
    (∀ anyId : Int, ∃ v, getTodoById s anyId none = Except.ok v) ∧
    (∀ c : JsCaught, ∃ e : JsError, getTodoById s id (some c) = Except.error e) := by
  refine ⟨?_, ?_, ?_⟩
  · have hnil : s.rows.filter (fun t => t.id == id) = [] := by
      apply List.filter_eq_nil_iff.mpr
      intro t ht
      simp [h t ht]
    simp [getTodoById, hnil]
  · intro anyId
    exact ⟨_, rfl⟩
  · intro c
    exact ⟨throwErr c "Error getting todo", rfl⟩

theorem getTodoById_absent_not_found_witness :
    getTodoById sampleDb 9 none = Except.ok none ∧
    (∀ anyId : Int, ∃ v, getTodoById sampleDb anyId none = Except.ok v) ∧
    (∀ c : JsCaught, ∃ e : JsError, getTodoById sampleDb 9 (some c) = Except.error e) :=
  getTodoById_absent_not_found sampleDb 9 (by decide)

/-- C3: whenever the single underlying engine call of a repository operation
fails with an `Error` carrying message `m`, the operation re-raises exactly
one wrapped error whose message is the operation-specific human-readable
message followed by the original message (the cause); the result is an
error — never a silently swallowed success — and the state is left
untouched, so the one failed call is not retried with effect. -/
theorem repository_wraps_engine_failures (s : DbState) (id : Int)
    (task : String) (completed : Bool) (status : Bool) (res : List Todo)
    (m : String) :
    getTodos s (some (JsCaught.errObj m)) =
      Except.error ⟨"Error getting todos" ++ ": " ++ m⟩ ∧
    getTodoById s id (some (JsCaught.errObj m)) =
      Except.error ⟨"Error getting todo" ++ ": " ++ m⟩ ∧
    getTodoByTask res (some (JsCaught.errObj m)) =
      Except.error ⟨"Error getting todo" ++ ": " ++ m⟩ ∧
    getTodoByStatus s status (some (JsCaught.errObj m)) =
      Except.error ⟨"Error getting todos" ++ ": " ++ m⟩ ∧
    (createTodo s task (some (JsCaught.errObj m))).1 =
      Except.error ⟨"Error creating todo" ++ ": " ++ m⟩ ∧
    (createTodo s task (some (JsCaught.errObj m))).2 = s ∧
    (updateTodoStatus s id completed (some (JsCaught.errObj m))).1 =
      Except.error ⟨"Error updating todo" ++ ": " ++ m⟩ ∧
    (updateTodoStatus s id completed (some (JsCaught.errObj m))).2 = s ∧
    (toggleTodoStatus s id (some (JsCaught.errObj m))).1 =
      Except.error ⟨"Error toggling todo status" ++ ": " ++ m⟩ ∧
    (toggleTodoStatus s id (some (JsCaught.errObj m))).2 = s ∧
    (updateTodoTask s id task (some (JsCaught.errObj m))).1 =
      Except.error ⟨"Error updating todo task" ++ ": " ++ m⟩ ∧
    (updateTodoTask s id task (some (JsCaught.errObj m))).2 = s ∧
    (updateTodo s id task completed (some (JsCaught.errObj m))).1 =
      Except.error ⟨"Error updating todo" ++ ": " ++ m⟩ ∧
    (updateTodo s id task completed (some (JsCaught.errObj m))).2 = s ∧
    (deleteTodo s id (some (JsCaught.errObj m))).1 =
      Except.error ⟨"Error deleting todo" ++ ": " ++ m⟩ ∧
    (deleteTodo s id (some (JsCaught.errObj m))).2 = s ∧
    (deleteAllTodos s (some (JsCaught.errObj m))).1 =
      Except.error ⟨"Error deleting all todos" ++ ": " ++ m⟩ ∧
    (deleteAllTodos s (some (JsCaught.errObj m))).2 = s ∧
    (deleteCompletedTodos s (some (JsCaught.errObj m))).1 =
      Except.error ⟨"Error deleting completed todos" ++ ": " ++ m⟩ ∧
    (deleteCompletedTodos s (some (JsCaught.errObj m))).2 = s ∧
    (deleteIncompleteTodos s (some (JsCaught.errObj m))).1 =
      Except.error ⟨"Error deleting incomplete todos" ++ ": " ++ m⟩ ∧
    (deleteIncompleteTodos s (some (JsCaught.errObj m))).2 = s ∧
    (deleteTodoByTask s task (some (JsCaught.errObj m))).1 =
      Except.error ⟨"Error deleting todo by task" ++ ": " ++ m⟩ ∧
    (deleteTodoByTask s task (some (JsCaught.errObj m))).2 = s ∧
    (initialiseDb s (some (JsCaught.errObj m))).1 =
      Except.error ⟨"Error initialising the database" ++ ": " ++ m⟩ ∧
    (initialiseDb s (some (JsCaught.errObj m))).2 = s :=
  ⟨rfl, rfl, rfl, rfl, rfl, rfl, rfl, rfl, rfl, rfl, rfl, rfl, rfl,
   rfl, rfl, rfl, rfl, rfl, rfl, rfl, rfl, rfl, rfl, rfl, rfl, rfl⟩

/-- C4 counterexample: on the non-numeric route parameter "abc" the
controller does not hand the repository the literal malformed value — it
hands it the coerced number `Number("abc")`, which is `NaN`, not the string
"abc". -/
theorem controller_id_not_literal_counterexample :
    controllerIdArgument "abc" = JsValue.num JsNum.nan ∧
    controllerIdArgument "abc" ≠ JsValue.str "abc" := by
  constructor
  · decide
  · decide

/-- C4 (amended): for a non-numeric id route parameter, the controller
coerces it with `Number(...)` to `NaN` and passes that to the repository
with no validation before the query; the resulting failure is the
QueryError the storage engine raises while executing the statement (wrapped
by the repository), never a validation error raised before the query. -/
theorem controller_nonNumeric_id_engine_error (s : DbState) (idParam : String)
    (h : jsNumber idParam = JsNum.nan) :
    controllerIdArgument idParam = JsValue.num JsNum.nan ∧
    controllerGetTodoById s idParam =
      Except.error (PipelineError.engineQuery
        ("Error getting todo" ++ ": " ++ "invalid input syntax for type integer")) ∧
    (∀ v, controllerGetTodoById s idParam ≠
        Except.error (PipelineError.validation v)) := by
  refine ⟨?_, ?_, ?_⟩
  · simp [controllerIdArgument, h]
  · simp [controllerGetTodoById, repoGetTodoByIdJs, engineSelectById, h, throwErr]
  · intro v hv
    simp [controllerGetTodoById, repoGetTodoByIdJs, engineSelectById, h, throwErr] at hv

theorem controller_nonNumeric_id_engine_error_witness :
    jsNumber "abc" = JsNum.nan ∧
    controllerGetTodoById sampleDb "abc" =
      Except.error (PipelineError.engineQuery
        ("Error getting todo" ++ ": " ++ "invalid input syntax for type integer")) :=
  ⟨by decide,
   (controller_nonNumeric_id_engine_error sampleDb "abc" (by decide)).2.1⟩

theorem map_toggle_twice (tid : Int) (rows : List Todo) :
    (rows.map
        (fun t => if t.id == tid then { t with completed := !t.completed } else t)).map
      (fun t => if t.id == tid then { t with completed := !t.completed } else t) =
      rows := by
  rw [List.map_map]
  have hcomp :
      ((fun t : Todo => if t.id == tid then { t with completed := !t.completed } else t) ∘
       (fun t : Todo => if t.id == tid then { t with completed := !t.completed } else t)) =
      id := by
    funext t
    cases t with
    | mk i tk c =>
        by_cases hc : i == tid <;> simp [Function.comp, hc, Bool.not_not]
  rw [hcomp, List.map_id]

/-- C5: for a stored id, applying `toggleTodoStatus` twice restores the
store exactly and the second call returns the original Todo, so in
particular the original `completed` value. -/
theorem toggleTodoStatus_twice_restores (s : DbState) (id : Int)
    (h : s.rows.filter (fun t => t.id == id) ≠ []) :
    (toggleTodoStatus (toggleTodoStatus s id none).2 id none).2.rows = s.rows ∧
    (∃ t₀ : Todo, (s.rows.filter (fun t => t.id == id)).head? = some t₀ ∧
      (toggleTodoStatus (toggleTodoStatus s id none).2 id none).1 =
        Except.ok (some t₀)) := by
  have hrows :
      (toggleTodoStatus (toggleTodoStatus s id none).2 id none).2.rows = s.rows :=
    map_toggle_twice id s.rows
  refine ⟨hrows, ?_⟩
  rcases hl : s.rows.filter (fun t => t.id == id) with _ | ⟨a, l⟩
  · exact absurd hl h
  · refine ⟨a, by rw [hl]; rfl, ?_⟩
    have hres :
        (toggleTodoStatus (toggleTodoStatus s id none).2 id none).1 =
          Except.ok ((((s.rows.map
            (fun t => if t.id == id then { t with completed := !t.completed } else t)).map
            (fun t => if t.id == id then { t with completed := !t.completed } else t)).filter
            (fun t => t.id == id)).head?) := rfl
    rw [hres, map_toggle_twice id s.rows, hl]
    rfl

theorem toggleTodoStatus_twice_restores_witness :
    (toggleTodoStatus (toggleTodoStatus sampleDb 2 none).2 2 none).2.rows =
      sampleDb.rows ∧
    (∃ t₀ : Todo, (sampleDb.rows.filter (fun t => t.id == 2)).head? = some t₀ ∧
      (toggleTodoStatus (toggleTodoStatus sampleDb 2 none).2 2 none).1 =
        Except.ok (some t₀)) :=
  toggleTodoStatus_twice_restores sampleDb 2 (by decide)

/-- C6: after a successful `deleteTodo(id)`, `getTodoById(id)` yields "not
found"; the delete call itself returns the deleted row's pre-delete field
values when a row with that id existed, and "not found" when none did. -/
theorem deleteTodo_then_getTodoById (s : DbState) (id : Int) :
    getTodoById (deleteTodo s id none).2 id none = Except.ok none ∧
    (∀ t₀ : Todo, (s.rows.filter (fun t => t.id == id)).head? = some t₀ →
        t₀ ∈ s.rows ∧ t₀.id = id ∧
        (deleteTodo s id none).1 = Except.ok (some t₀)) ∧
    ((∀ t ∈ s.rows, t.id ≠ id) →
        (deleteTodo s id none).1 = Except.ok none) := by
  refine ⟨?_, ?_, ?_⟩
  · have hnil :
        (s.rows.filter (fun t => !(t.id == id))).filter (fun t => t.id == id) = [] := by
      apply List.filter_eq_nil_iff.mpr
      intro t ht
      have h2 := List.of_mem_filter ht
      simp at h2 ⊢
      exact h2
    simp [getTodoById, deleteTodo, hnil]
  · intro t₀ h0
    rcases hf : s.rows.filter (fun t => t.id == id) with _ | ⟨a, l⟩
    · rw [hf] at h0; cases h0
    · rw [hf] at h0
      have ha : a = t₀ := by simpa using h0
      subst ha
      have hmem : a ∈ s.rows.filter (fun t => t.id == id) := by
        rw [hf]; exact List.mem_cons_self a l
      have h1 := List.mem_filter.mp hmem
      refine ⟨h1.1, by simpa using h1.2, ?_⟩
      show Except.ok ((s.rows.filter (fun t => t.id == id)).head?) =
        Except.ok (some a)
      rw [hf]; rfl
  · intro hno
    have hfe : s.rows.filter (fun t => t.id == id) = [] :=
      List.filter_eq_nil_iff.mpr (fun t ht => by simp [hno t ht])
    show Except.ok ((s.rows.filter (fun t => t.id == id)).head?) = Except.ok none
    rw [hfe]; rfl

theorem deleteTodo_then_getTodoById_witness :
    getTodoById (deleteTodo sampleDb 2 none).2 2 none = Except.ok none ∧
    (deleteTodo sampleDb 2 none).1 = Except.ok (some ⟨2, "Walk the dog", true⟩) ∧
    (deleteTodo sampleDb 9 none).1 = Except.ok none := by
  refine ⟨(deleteTodo_then_getTodoById sampleDb 2).1, ?_, ?_⟩
  · exact ((deleteTodo_then_getTodoById sampleDb 2).2.1
      ⟨2, "Walk the dog", true⟩ (by decide)).2.2
  · exact (deleteTodo_then_getTodoById sampleDb 9).2.2 (by decide)

theorem filter_map_same_id (f : Todo → Todo) (hf : ∀ t, (f t).id = t.id)
    (tid : Int) (rows : List Todo) :
    (rows.map f).filter (fun t => t.id == tid) =
      (rows.filter (fun t => t.id == tid)).map f := by
  induction rows with
  | nil => rfl
  | cons a l ih =>
      by_cases hc : a.id == tid
      · simp [List.filter_cons, List.map_cons, hf, hc, ih]
      · simp [List.filter_cons, List.map_cons, hf, hc, ih]

theorem map_noop (rows : List Todo) (f : Todo → Todo)
    (hf : ∀ t ∈ rows, f t = t) : rows.map f = rows := by
  induction rows with
  | nil => rfl
  | cons a l ih =>
      simp only [List.map_cons]
      rw [hf a (List.mem_cons_self a l),
        ih (fun t ht => hf t (List.mem_cons_of_mem a ht))]

/-- C7: on an existing row, `updateTodo(id, task, completed)` sets both
fields, returns `{id, task, completed}`, and never changes any row's id; on
a non-existent id it returns "not found" and leaves the store untouched. -/
theorem updateTodo_sets_both_fields (s : DbState) (id : Int) (task : String)
    (completed : Bool) :
    ((∃ t ∈ s.rows, t.id = id) →
        (updateTodo s id task completed none).1 =
          Except.ok (some ⟨id, task, completed⟩)) ∧
    (updateTodo s id task completed none).2.rows.map Todo.id =
      s.rows.map Todo.id ∧
    ((∀ t ∈ s.rows, t.id ≠ id) →
        (updateTodo s id task completed none).1 = Except.ok none ∧
        (updateTodo s id task completed none).2 = s) := by
  have hf : ∀ t : Todo,
      ((fun t : Todo =>
          if t.id == id then { t with task := task, completed := completed }
          else t) t).id = t.id := by
    intro t
    by_cases hc : t.id == id <;> simp [hc]
  refine ⟨?_, ?_, ?_⟩
  · rintro ⟨u, hu, huid⟩
    have hfil := filter_map_same_id _ hf id s.rows
    rcases hfl : s.rows.filter (fun t => t.id == id) with _ | ⟨a, l⟩
    · have : u ∈ s.rows.filter (fun t => t.id == id) :=
        List.mem_filter.mpr ⟨hu, by simp [huid]⟩
      rw [hfl] at this
      cases this
    · have hmem : a ∈ s.rows.filter (fun t => t.id == id) := by
        rw [hfl]; exact List.mem_cons_self a l
      have haid : a.id = id := by
        have := (List.mem_filter.mp hmem).2
        simpa using this
      have hres : (updateTodo s id task completed none).1 =
          Except.ok (((s.rows.map (fun t : Todo =>
            if t.id == id then { t with task := task, completed := completed }
            else t)).filter (fun t => t.id == id)).head?) := rfl
      rw [hres, hfil, hfl]
      simp [haid]
  · have hcomp : (Todo.id ∘ fun t : Todo =>
        if t.id == id then { t with task := task, completed := completed }
        else t) = Todo.id := by
      funext t
      exact hf t
    have hrows : (updateTodo s id task completed none).2.rows =
        s.rows.map (fun t : Todo =>
          if t.id == id then { t with task := task, completed := completed }
          else t) := rfl
    rw [hrows, List.map_map, hcomp]
  · intro hno
    have hmapid : s.rows.map (fun t : Todo =>
        if t.id == id then { t with task := task, completed := completed }
        else t) = s.rows := by
      apply map_noop
      intro t ht
      simp [hno t ht]
    constructor
    · have hfe : s.rows.filter (fun t => t.id == id) = [] :=
        List.filter_eq_nil_iff.mpr (fun t ht => by simp [hno t ht])
      have hres : (updateTodo s id task completed none).1 =
          Except.ok (((s.rows.map (fun t : Todo =>
            if t.id == id then { t with task := task, completed := completed }
            else t)).filter (fun t => t.id == id)).head?) := rfl
      rw [hres, filter_map_same_id _ hf id s.rows, hfe]
      rfl
    · have hst : (updateTodo s id task completed none).2 =
          { s with rows := s.rows.map (fun t : Todo =>
            if t.id == id then { t with task := task, completed := completed }
            else t) } := rfl
      rw [hst, hmapid]

theorem updateTodo_sets_both_fields_witness :
    (updateTodo sampleDb 1 "Buy milk and eggs" true none).1 =
      Except.ok (some ⟨1, "Buy milk and eggs", true⟩) ∧
    (updateTodo sampleDb 9 "x" true none).1 = Except.ok none ∧
    (updateTodo sampleDb 9 "x" true none).2 = sampleDb := by
  refine ⟨?_, ?_, ?_⟩
  · exact (updateTodo_sets_both_fields sampleDb 1 "Buy milk and eggs" true).1
      ⟨⟨1, "Buy groceries", false⟩, by decide, rfl⟩
  · exact ((updateTodo_sets_both_fields sampleDb 9 "x" true).2.2 (by decide)).1
  · exact ((updateTodo_sets_both_fields sampleDb 9 "x" true).2.2 (by decide)).2

/-- C8: `deleteCompletedTodos` removes exactly the rows with
`completed = true` — a row survives iff it was stored and not completed,
surviving rows keep their relative order — and `getTodoByStatus(true)`
afterwards returns the empty sequence. -/
theorem deleteCompletedTodos_exact (s : DbState) :
    (∀ t : Todo, t ∈ (deleteCompletedTodos s none).2.rows ↔
        (t ∈ s.rows ∧ t.completed = false)) ∧
    (deleteCompletedTodos s none).2.rows.Sublist s.rows ∧
    getTodoByStatus (deleteCompletedTodos s none).2 true none = Except.ok [] := by
  refine ⟨?_, ?_, ?_⟩
  · intro t
    simp [deleteCompletedTodos, List.mem_filter]
  · exact List.filter_sublist s.rows
  · have hnil :
        (s.rows.filter (fun t => !t.completed)).filter
          (fun t => t.completed == true) = [] := by
      apply List.filter_eq_nil_iff.mpr
      intro t ht
      have h2 := List.of_mem_filter ht
      simp at h2 ⊢
      exact h2
    simp [getTodoByStatus, deleteCompletedTodos, hnil]

/-- C9: with a reachable engine, running `initialiseDb` twice in a row never
fails, and the second call leaves the table definition and every stored row
exactly as the first call left them. -/
theorem initialiseDb_idempotent (s : DbState) :
    (initialiseDb s none).1 = Except.ok () ∧
    (initialiseDb (initialiseDb s none).2 none).1 = Except.ok () ∧
    (initialiseDb (initialiseDb s none).2 none).2 = (initialiseDb s none).2 := by
  refine ⟨rfl, rfl, ?_⟩
  cases s with
  | mk sc r n => cases sc <;> rfl

/-- C10: whatever order the engine returns the rows matching a task in,
`getTodoByTask` returns the first row of that result set — a single
matching Todo, not all matches and not an error — and when at least two
distinct rows match, different engine orders give different answers, so the
returned row is not determined by the operation. -/
theorem getTodoByTask_first_of_engine_order (s : DbState) (task : String)
    (res : List Todo) (hperm : res.Perm (selectByTask s task)) :
    getTodoByTask res none = Except.ok res.head? ∧
    (selectByTask s task ≠ [] →
        ∃ t, res.head? = some t ∧ t ∈ selectByTask s task) ∧
    ((∃ t₁ ∈ selectByTask s task, ∃ t₂ ∈ selectByTask s task, t₁ ≠ t₂) →
        ∃ res₁ res₂ : List Todo, res₁.Perm (selectByTask s task) ∧
          res₂.Perm (selectByTask s task) ∧
          getTodoByTask res₁ none ≠ getTodoByTask res₂ none) := by
  refine ⟨rfl, ?_, ?_⟩
  · intro hne
    rcases res with _ | ⟨a, l⟩
    · exact absurd hperm.nil_eq.symm hne
    · exact ⟨a, rfl, hperm.mem_iff.mp (List.mem_cons_self a l)⟩
  · rintro ⟨t₁, ht₁, t₂, ht₂, hne12⟩
    refine ⟨t₁ :: (selectByTask s task).erase t₁,
      t₂ :: (selectByTask s task).erase t₂,
      (List.perm_cons_erase ht₁).symm, (List.perm_cons_erase ht₂).symm, ?_⟩
    intro hEq
    simp [getTodoByTask] at hEq
    exact hne12 hEq

theorem getTodoByTask_first_of_engine_order_witness :
    getTodoByTask (selectByTask dupDb "same") none =
      Except.ok (selectByTask dupDb "same").head? ∧
    (∃ t, (selectByTask dupDb "same").head? = some t ∧
        t ∈ selectByTask dupDb "same") ∧
    (∃ res₁ res₂ : List Todo, res₁.Perm (selectByTask dupDb "same") ∧
        res₂.Perm (selectByTask dupDb "same") ∧
        getTodoByTask res₁ none ≠ getTodoByTask res₂ none) := by
  have h := getTodoByTask_first_of_engine_order dupDb "same"
    (selectByTask dupDb "same") (List.Perm.refl _)
  exact ⟨h.1, h.2.1 (by decide),
    h.2.2 ⟨⟨1, "same", false⟩, by decide, ⟨2, "same", true⟩, by decide, by decide⟩⟩

end TodoApp
